import Mathlib

/-!
Verification of the acquisition pipeline of `audible-downloader.py`.

The Python source is shallowly embedded: file-system state is an explicit
association of paths to sizes and (for voucher files) parsed JSON values;
external processes (the download client and the transcoder) are oracles whose
exit codes and file-system effects are inputs to the embedded functions.
Paths are plain strings manipulated as character lists, mirroring `pathlib`
name/stem/suffix arithmetic.
-/

/-- JSON values as produced by `json.loads`; objects carry their (unique-key)
entries as an association list. -/
inductive Json where
  | null
  | bool (b : Bool)
  | num (n : Int)
  | str (s : String)
  | arr (xs : List Json)
  | obj (kvs : List (String × Json))

/-- Python truthiness (`not x`) for JSON-decoded values: `None`, `False`, `0`,
empty string, empty list and empty dict are falsy. -/
def Json.truthy : Json → Bool
  | .null => false
  | .bool b => b
  | .num n => n != 0
  | .str s => s.data != []
  | .arr xs => !xs.isEmpty
  | .obj kvs => !kvs.isEmpty

/-- `d.get(k, default)` on a decoded dict; `none` models the `AttributeError`
raised when `.get` is called on a non-dict value. -/
def Json.pyGetD (j : Json) (k : String) (d : Json) : Option Json :=
  match j with
  | .obj kvs => some ((kvs.lookup k).getD d)
  | _ => none

/-- `d.get(k)` on a decoded dict (default `None`). -/
def Json.pyGet (j : Json) (k : String) : Option Json :=
  j.pyGetD k .null

/-- One file on disk: its path, its size in bytes, and (when the file holds
valid JSON) the value `json.loads` of its text yields. -/
structure FileEntry where
  path : String
  size : Nat
  json : Option Json

/-- File-system state: directory-ordered list of files. -/
abbrev FS := List FileEntry

def fsLookup (fs : FS) (p : String) : Option FileEntry :=
  fs.find? (fun fe => fe.path == p)

/-- `pathlib.Path.exists()`. -/
def fsExists (fs : FS) (p : String) : Bool :=
  (fsLookup fs p).isSome

/-- `path.stat().st_size` (0 when absent; callers guard with `exists()`). -/
def fsSize (fs : FS) (p : String) : Nat :=
  ((fsLookup fs p).map (fun fe => fe.size)).getD 0

/-- `path.unlink()`. -/
def fsRemove (fs : FS) (p : String) : FS :=
  fs.filter (fun fe => fe.path != p)

/- ### pathlib name/stem/suffix arithmetic, over character lists -/

/-- The final path component (`Path.name`): characters after the last slash. -/
def nameChars (l : List Char) : List Char :=
  (l.reverse.takeWhile (fun c => c != '/')).reverse

/-- The leading directory part including its trailing slash (empty when the
path has no slash). -/
def dirChars (l : List Char) : List Char :=
  (l.reverse.dropWhile (fun c => c != '/')).reverse

/-- `Path.parent` as a string: the directory part without its trailing slash
(`.` for a bare name, as in pathlib). -/
def parentStr (p : String) : String :=
  match dirChars p.data with
  | [] => "."
  | l => (l.dropLast).asString

/-- Index of the last dot in a name (`name.rfind(chr(46))`). -/
def lastDotIdx (l : List Char) : Option Nat :=
  match l.reverse.findIdx? (fun c => c == '.') with
  | none => none
  | some j => some (l.length - 1 - j)

/-- Length of `Path.suffix` of a name: nonzero only when the last dot sits
strictly inside the name (not first, not last character). -/
def suffixLen (l : List Char) : Nat :=
  match lastDotIdx l with
  | none => 0
  | some i => if 0 < i && i + 1 < l.length then l.length - i else 0

/-- `Path.stem` of a name. -/
def stemOfName (l : List Char) : List Char :=
  l.take (l.length - suffixLen l)

/-- `Path.with_suffix(suf).name`: the stem with the new suffix appended. -/
def withSuffixName (l : List Char) (suf : List Char) : List Char :=
  stemOfName l ++ suf

/-- `Path.with_suffix(suf)` on a full path. -/
def pathWithSuffix (p : String) (suf : String) : String :=
  (dirChars p.data ++ withSuffixName (nameChars p.data) suf.data).asString

/- ### Core functions of audible-downloader.py -/

/-- `validate_asin`: `len(asin) == 10 and asin.startswith(chr(66))`. -/
def validate_asin (asin : String) : Bool :=
  asin.length == 10 && asin.data.head? == some 'B'

/-- Failure kinds of `get_aaxc_credentials`: the two `ClickException`s raised
by the function itself, plus other Python exceptions (JSON decode error,
attribute error on a non-dict). -/
inductive CredErr where
  | missingFile
  | malformedVoucher
  | pyError
deriving DecidableEq

/-- `get_aaxc_credentials(voucher_file)`: missing file raises; otherwise the
voucher text is JSON-decoded, `content_license` / `license_response` are
navigated with dict `.get` and empty-dict defaults, and falsy `key`/`iv`
raise the malformed-voucher exception. -/
def get_aaxc_credentials (fs : FS) (voucher_file : String) : Except CredErr (Json × Json) :=
  match fsLookup fs voucher_file with
  | none => .error .missingFile
  | some fe =>
    match fe.json with
    | none => .error .pyError
    | some voucher_data =>
      match voucher_data.pyGetD "content_license" (.obj []) with
      | none => .error .pyError
      | some cl0 =>
        match cl0.pyGetD "license_response" (.obj []) with
        | none => .error .pyError
        | some content_license =>
          match content_license.pyGet "key", content_license.pyGet "iv" with
          | some key, some iv =>
            if !key.truthy || !iv.truthy then .error .malformedVoucher
            else .ok (key, iv)
          | _, _ => .error .pyError

/-- The decrypt target: `output_dir / input_file.with_suffix(".m4b").name`. -/
def decrypt_output_path (input_file output_dir : String) : String :=
  output_dir ++ "/" ++ (withSuffixName (nameChars input_file.data) ".m4b".data).asString

/-- `decrypt_audiobook`: runs the transcoder (its exit code is the oracle
`returncode`, `none` when `subprocess.run` itself raised) and then demands a
zero exit, an existing target file and a nonzero size; any violation returns
`(False, None)`. `fs` is the file system after the transcoder ran. -/
def decrypt_audiobook (input_file output_dir : String) (returncode : Option Int) (fs : FS) :
    Bool × Option String :=
  let output_file := decrypt_output_path input_file output_dir
  match returncode with
  | none => (false, none)
  | some rc =>
    if rc != 0 then (false, none)
    else if !(fsExists fs output_file) || fsSize fs output_file == 0 then (false, none)
    else (true, some output_file)

/-- `verify_decrypted_file`: transcoder validate-only exit code must be zero;
an exception while invoking it (`none`) also yields `False`. -/
def verify_decrypted_file (returncode : Option Int) : Bool :=
  match returncode with
  | none => false
  | some rc => rc == 0

/- ### get_related_files and its stem regex -/

/-- Whether either license marker (`-AAX` or `-LC`) starts at the head of the
suffix, ignoring the regex tail. -/
def markerHere (l : List Char) : Bool :=
  "-AAX".data.isPrefixOf l || "-LC".data.isPrefixOf l

/-- Whether the regex tail `.*$` (no MULTILINE, no DOTALL) matches the whole
remaining text `s`: dot never crosses a newline, and the dollar anchors at the
end of the string or just before one trailing newline. -/
def tailOk (s : List Char) : Bool :=
  !(s.contains '\n') || (s.getLast? == some '\n' && !(s.dropLast.contains '\n'))

/-- Whether the pattern of `re.search` in `get_related_files` matches at the
head of `l`. -/
def markerMatchHere (l : List Char) : Bool :=
  ("-AAX".data.isPrefixOf l && tailOk (l.drop 4)) ||
  ("-LC".data.isPrefixOf l && tailOk (l.drop 3))

/-- Start index of the leftmost match of the marker pattern in the stem, as
`re.search` computes it. -/
def reSearchStart : List Char → Option Nat
  | [] => none
  | c :: cs =>
    if markerMatchHere (c :: cs) then some 0
    else (reSearchStart cs).map (fun i => i + 1)

/-- The base-name computation inside `get_related_files`, together with the
number of warnings emitted (one in the no-match fallback branch). -/
def base_name_of (stem : List Char) : List Char × Nat :=
  match reSearchStart stem with
  | none => (stem, 1)
  | some i => (stem.take i, 0)

/-- Modelled from the claim wording only (for comparison with the code): the
index of the first occurrence of either license-marker substring in the stem,
with no regex tail condition. -/
def specFirstMarkerIdx : List Char → Option Nat
  | [] => none
  | c :: cs =>
    if markerHere (c :: cs) then some 0
    else (specFirstMarkerIdx cs).map (fun i => i + 1)

/-- Case-insensitive `.jpg` tail of the glob `[jJ][pP][gG]`. -/
def jpgExt (l : List Char) : Bool :=
  match l with
  | ['.', j, p, g] =>
    (j == 'j' || j == 'J') && (p == 'p' || p == 'P') && (g == 'g' || g == 'G')
  | _ => false

/-- Case-insensitive `.jpeg` tail of the glob `[jJ][pP][eE][gG]`. -/
def jpegExt (l : List Char) : Bool :=
  match l with
  | ['.', j, p, e, g] =>
    (j == 'j' || j == 'J') && (p == 'p' || p == 'P') &&
    (e == 'e' || e == 'E') && (g == 'g' || g == 'G')
  | _ => false

/-- fnmatch of a directory-entry name against `base*` followed by a fixed-width
case-insensitive extension class of width `w`. -/
def globBaseExt (base : List Char) (w : Nat) (extOk : List Char → Bool) (name : List Char) :
    Bool :=
  base.isPrefixOf name && base.length + w ≤ name.length &&
    extOk (name.drop (name.length - w))

/-- Names of the entries of `directory`, in directory order. -/
def dirListing (fs : FS) (directory : String) : List String :=
  (fs.filter (fun fe => parentStr fe.path == directory)).map (fun fe => nameChars fe.path.data |>.asString)

/-- Result of `get_related_files`: the existing related paths, and how many
warnings were printed. -/
structure RelatedResult where
  files : List String
  warnings : Nat
deriving DecidableEq

/-- `get_related_files(aaxc_file)`: base name from the stem regex (with a
warning on fallback), then the artifact, its `.voucher` sibling, the
`-chapters.json` file and every `base*.jpg` / `base*.jpeg` directory entry,
filtered down to files that exist. -/
def get_related_files (fs : FS) (aaxc_file : String) : RelatedResult :=
  let directory := parentStr aaxc_file
  let stem := stemOfName (nameChars aaxc_file.data)
  let bw := base_name_of stem
  let base_name := bw.1
  let related : List String :=
    [aaxc_file,
     pathWithSuffix aaxc_file ".voucher",
     directory ++ "/" ++ base_name.asString ++ "-chapters.json"]
  let jpgs := (dirListing fs directory).filter (fun n => globBaseExt base_name 4 jpgExt n.data)
  let jpegs := (dirListing fs directory).filter (fun n => globBaseExt base_name 5 jpegExt n.data)
  let allFiles := related ++ (jpgs ++ jpegs).map (fun n => directory ++ "/" ++ n)
  ⟨allFiles.filter (fun p => fsExists fs p), bw.2⟩

/-- `cleanup_files`: best-effort unlink of every listed file. -/
def cleanup_files (fs : FS) (files_to_remove : List String) : FS :=
  files_to_remove.foldl fsRemove fs

/-- `find_aaxc_file(directory)`: first directory entry matching `*.aaxc`. -/
def find_aaxc_file (fs : FS) (directory : String) : Option String :=
  ((fs.filter (fun fe => parentStr fe.path == directory)).find?
    (fun fe => ".aaxc".data.isSuffixOf (nameChars fe.path.data))).map (fun fe => fe.path)

/- ### parse_library_list_output -/

/-- One parsed catalog record: `{asin, title, authors=[{name: author}]}`. -/
structure LibEntry where
  asin : String
  title : String
  authors : List String
deriving DecidableEq

/-- Python whitespace characters stripped by `str.strip()`. -/
def isPySpace (c : Char) : Bool :=
  c == ' ' || c == '\t' || c == '\n' || c == '\r' || c == '\x0b' || c == '\x0c'

/-- `str.strip()` over characters. -/
def pyStrip (l : List Char) : List Char :=
  ((l.dropWhile isPySpace).reverse.dropWhile isPySpace).reverse

/-- Split at the first occurrence of `sep`, when present. -/
def splitFirst (sep : Char) : List Char → Option (List Char × List Char)
  | [] => none
  | c :: cs =>
    if c == sep then some ([], cs)
    else (splitFirst sep cs).map (fun p => (c :: p.1, p.2))

/-- `str.split(sep, maxsplit)`: at most `n` splits, remainder kept whole. -/
def splitMax (sep : Char) : Nat → List Char → List (List Char)
  | 0, l => [l]
  | n + 1, l =>
    match splitFirst sep l with
    | none => [l]
    | some (b, a) => b :: splitMax sep n a

/-- `str.split(sep)` with no limit (used for the newline split). -/
def splitAll (sep : Char) : List Char → List (List Char)
  | [] => [[]]
  | c :: cs =>
    if c == sep then [] :: splitAll sep cs
    else
      match splitAll sep cs with
      | [] => [[c]]
      | p :: ps => (c :: p) :: ps

/-- One iteration of the parsing loop: split the line on at most two colons,
demand exactly three parts (fewer raises `ValueError`, caught and skipped),
strip each, and build the record. -/
def parse_line (line : List Char) : Option LibEntry :=
  match splitMax ':' 2 line with
  | [a, b, c] => some ⟨(pyStrip a).asString, (pyStrip c).asString, [(pyStrip b).asString]⟩
  | _ => none

/-- `parse_library_list_output`: strip the whole text, split into lines, skip
empty lines, parse each remaining line (unparsable lines warn and are
skipped). -/
def parse_library_list_output (text_output : String) : List LibEntry :=
  (splitAll '\n' (pyStrip text_output.data)).filterMap
    (fun line => if line.isEmpty then none else parse_line line)

/- ### process_book: the pipeline orchestrator -/

/-- The external commands `process_book` can launch. -/
inductive ExtCmd where
  | download
  | ffmpegDecrypt
  | ffmpegVerify
deriving DecidableEq

/-- Oracle for the external effects of one `process_book` run: the file system
before anything runs, the download client's outcome and resulting file system,
the transcoder's decrypt exit code (`none` = exception) and resulting file
system, and the validate-only exit code. -/
structure PbEnv where
  fs0 : FS
  downloadOk : Bool
  fsDl : FS
  decryptRc : Option Int
  fsDec : FS
  verifyRc : Option Int

/-- Outcome of one `process_book` run: the process exit code, the external
commands launched (in order), the final file system, whether the verifier was
invoked, and the decrypt target path once computed. -/
structure PbResult where
  exitCode : Nat
  cmds : List ExtCmd
  fs : FS
  verifyCalled : Bool
  outputFile : Option String

/-- `process_book(asin, output_dir, keep_files, profile)`: validate the ASIN
(fail fast with no external call), download, locate the artifact, extract
credentials from the `.voucher` sibling, decrypt, verify (deleting the
unverified output if it exists on failure), then clean up unless retention was
requested. Every failure exits the process with code 1. -/
def process_book (asin output_dir : String) (keep_files : Bool) (env : PbEnv) : PbResult :=
  if !(validate_asin asin) then
    ⟨1, [], env.fs0, false, none⟩
  else if !env.downloadOk then
    ⟨1, [.download], env.fsDl, false, none⟩
  else
    match find_aaxc_file env.fsDl output_dir with
    | none => ⟨1, [.download], env.fsDl, false, none⟩
    | some aaxc_file =>
      match get_aaxc_credentials env.fsDl (pathWithSuffix aaxc_file ".voucher") with
      | .error _ => ⟨1, [.download], env.fsDl, false, none⟩
      | .ok _ =>
        match decrypt_audiobook aaxc_file output_dir env.decryptRc env.fsDec with
        | (true, some output_file) =>
          if !(verify_decrypted_file env.verifyRc) then
            ⟨1, [.download, .ffmpegDecrypt, .ffmpegVerify],
             if fsExists env.fsDec output_file then fsRemove env.fsDec output_file
             else env.fsDec,
             true, some output_file⟩
          else
            ⟨0, [.download, .ffmpegDecrypt, .ffmpegVerify],
             if !keep_files then
               cleanup_files env.fsDec (get_related_files env.fsDec aaxc_file).files
             else env.fsDec,
             true, some output_file⟩
        | _ => ⟨1, [.download, .ffmpegDecrypt], env.fsDec, false, none⟩

/- ### browse_and_download_mode: sort toggle and pagination state machine -/

/-- `current_sort` inversion in the declined branch of the sort prompt. -/
def invertSort (sort_order : String) : String :=
  if sort_order == "newest_first" then "oldest_first" else "newest_first"

/-- `str.replace` of underscores with spaces, as in the sort announcement. -/
def underscoreToSpace (s : String) : String :=
  (s.data.map (fun c => if c == '_' then ' ' else c)).asString

/-- The sort-toggle interaction: on confirmation, reverse exactly when the
configured order is newest-first; on decline, invert the order, reverse
exactly when the inverted order is newest-first, and announce the new order.
Returns the resulting listing and the announcement, if any. -/
def applySortToggle (sort_order : String) (confirmed : Bool) (library_data : List LibEntry) :
    List LibEntry × Option String :=
  if confirmed then
    (if sort_order == "newest_first" then library_data.reverse else library_data, none)
  else
    let current_sort := invertSort sort_order
    (if current_sort == "newest_first" then library_data.reverse else library_data,
     some ("Sorting by " ++ underscoreToSpace current_sort ++ "."))

/-- The effective sort direction of the toggle: the configured one when the
operator confirms, its inverse when the operator declines. -/
def effectiveSort (sort_order : String) (confirmed : Bool) : String :=
  if confirmed then sort_order else invertSort sort_order

/-- `library_data[start_index:end_index]`: the slice shown on one page. -/
def page_data {α : Type} (library_data : List α) (page_size page_num : Nat) : List α :=
  (library_data.drop (page_num * page_size)).take page_size

/-- `-(-len // page_size)`: the page count displayed in the table title
(ceiling division). -/
def totalPages (n page_size : Nat) : Nat :=
  (n + page_size - 1) / page_size

/-- One operator input to the browsing loop. `num n` stands for any
digits-only input whose integer value is `n`. -/
inductive BrowseInput where
  | num (n : Nat)
  | next
  | prev
  | quit
  | other

/-- Outcome of one loop iteration: stay in the loop at a page (with or
without a boundary/invalid notice), exit with a selected ASIN handed to the
orchestrator, or exit via quit. -/
inductive BrowseOut where
  | cont (page : Nat) (notice : Bool)
  | select (asin : String)
  | quitOut
deriving DecidableEq

/-- One iteration of the `while True` browsing loop on an input: a digit
string is accepted iff `1 <= choice <= len(library_data)` and selects
`library_data[choice - 1]`; `n`/`p` move the page, clamped at the bounds with
a notice; anything else re-prompts. -/
def browseStep (library_data : List LibEntry) (page_size page_num : Nat) :
    BrowseInput → BrowseOut
  | .num n =>
    if h : 1 ≤ n ∧ n ≤ library_data.length then
      .select (library_data.get ⟨n - 1, by omega⟩).asin
    else
      .cont page_num true
  | .next =>
    if page_num * page_size + page_size < library_data.length then .cont (page_num + 1) false
    else .cont page_num true
  | .prev =>
    if 0 < page_num then .cont (page_num - 1) false
    else .cont page_num true
  | .quit => .quitOut
  | .other => .cont page_num true

/-- The selected ASIN is handed to `process_book` when the loop exits via a
selection. -/
def browseDispatch (output_dir : String) (keep_files : Bool) (env : PbEnv) :
    BrowseOut → Option PbResult
  | .select asin => some (process_book asin output_dir keep_files env)
  | _ => none

/-- Page indices reachable by the browsing loop from its initial page 0. -/
inductive BrowseReach (library_data : List LibEntry) (page_size : Nat) : Nat → Prop where
  | init : BrowseReach library_data page_size 0
  | step : ∀ p p' i b, BrowseReach library_data page_size p →
      browseStep library_data page_size p i = .cont p' b →
      BrowseReach library_data page_size p'

/- ### Sample data used by witnesses -/

/-- A sample catalog entry. -/
def entryA : LibEntry := ⟨"B000000001", "Book One", ["Author One"]⟩

/-- A second sample catalog entry. -/
def entryB : LibEntry := ⟨"B000000002", "Book Two", ["Author Two"]⟩

/- ### Theorems -/

/-- C1: `decrypt_audiobook` returns success with the target output path if and
only if the transcoder exits with code zero, the target file exists, and its
size is greater than zero; any violation yields failure with no path. -/
theorem C1_decrypt_success_iff (input_file output_dir : String) (rc : Option Int) (fs : FS) :
    decrypt_audiobook input_file output_dir rc fs =
      if rc = some 0 ∧ fsExists fs (decrypt_output_path input_file output_dir) = true ∧
          0 < fsSize fs (decrypt_output_path input_file output_dir)
      then (true, some (decrypt_output_path input_file output_dir))
      else (false, none) := by
  unfold decrypt_audiobook
  cases rc with
  | none => simp
  | some r =>
    by_cases hr : r = 0
    · subst hr
      by_cases he : fsExists fs (decrypt_output_path input_file output_dir) = true
      · by_cases hs : fsSize fs (decrypt_output_path input_file output_dir) = 0
        · simp [he, hs]
        · simp [he, hs, Nat.pos_of_ne_zero hs]
      · simp [Bool.not_eq_true] at he
        simp [he]
    · simp [hr]

/-- C5: every string whose length is not 10 or whose first character is not
the sentinel is rejected by `validate_asin`, and `process_book` then exits
with code 1 without launching any external command. -/
theorem C5_invalid_asin_fails_fast (s output_dir : String) (keep_files : Bool) (env : PbEnv)
    (h : s.length ≠ 10 ∨ s.data.head? ≠ some 'B') :
    validate_asin s = false ∧
      process_book s output_dir keep_files env = ⟨1, [], env.fs0, false, none⟩ := by
  have hv : validate_asin s = false := by
    unfold validate_asin
    rcases h with h | h <;> simp [h]
  exact ⟨hv, by simp [process_book, hv]⟩

/-- C5 witness: the nine-character string fails validation and the pipeline
exits with code 1 having launched no external command. -/
theorem C5_witness :
    validate_asin "B12345678" = false ∧
      process_book "B12345678" "out" false ⟨[], true, [], some 0, [], some 0⟩ =
        ⟨1, [], [], false, none⟩ :=
  C5_invalid_asin_fails_fast "B12345678" "out" false ⟨[], true, [], some 0, [], some 0⟩
    (Or.inl (by decide))

/-- C8: for each of the two recognized configured sort directions, the sort
toggle reverses the listing exactly when the effective direction (the
configured one on confirmation, its inverse on decline) is newest-first, and
on decline the announced order is the new, inverted one. -/
theorem C8_sort_toggle (sort_order : String) (confirmed : Bool) (library_data : List LibEntry)
    (h : sort_order = "newest_first" ∨ sort_order = "oldest_first") :
    (applySortToggle sort_order confirmed library_data).1 =
      (if effectiveSort sort_order confirmed = "newest_first" then library_data.reverse
       else library_data) ∧
    (confirmed = false →
      (applySortToggle sort_order confirmed library_data).2 =
        some ("Sorting by " ++ underscoreToSpace (effectiveSort sort_order confirmed) ++ ".")) := by
  rcases h with h | h <;> subst h <;> cases confirmed <;>
    simp +decide [applySortToggle, effectiveSort, invertSort]

/-- C8 witness: declining the oldest-first default inverts to newest-first,
reverses the listing once, and announces the new order. -/
theorem C8_witness :
    (applySortToggle "oldest_first" false [entryA, entryB]).1 =
      (if effectiveSort "oldest_first" false = "newest_first" then [entryA, entryB].reverse
       else [entryA, entryB]) ∧
    (false = false →
      (applySortToggle "oldest_first" false [entryA, entryB]).2 =
        some ("Sorting by " ++ underscoreToSpace (effectiveSort "oldest_first" false) ++ ".")) :=
  C8_sort_toggle "oldest_first" false [entryA, entryB] (Or.inr rfl)

/-- When the library is nonempty and the page size positive, the displayed
page count is at least one. -/
theorem totalPages_pos (n ps : Nat) (hps : 0 < ps) (hn : 0 < n) : 1 ≤ totalPages n ps := by
  unfold totalPages
  rw [Nat.le_div_iff_mul_le hps, Nat.one_mul]
  omega

/-- A page on which `next` succeeds is at least two pages below the count. -/
theorem next_page_bound (n ps p : Nat) (hps : 0 < ps) (hlt : p * ps + ps < n) :
    p + 2 ≤ totalPages n ps := by
  unfold totalPages
  rw [Nat.le_div_iff_mul_le hps]
  have e : (p + 2) * ps = p * ps + ps + ps := by ring
  omega

/-- The page-index invariant of the browsing loop. -/
theorem browse_page_invariant (l : List LibEntry) (ps p : Nat) (hps : 0 < ps)
    (hn : 0 < l.length) (hr : BrowseReach l ps p) :
    p ≤ totalPages l.length ps - 1 := by
  induction hr with
  | init =>
    have := totalPages_pos l.length ps hps hn
    omega
  | step q q' i b hr heq ih =>
    cases i with
    | num m =>
      simp only [browseStep] at heq
      split at heq
      · simp at heq
      · cases heq; exact ih
    | next =>
      simp only [browseStep] at heq
      split at heq
      case _ hlt =>
        cases heq
        have := next_page_bound l.length ps q hps hlt
        omega
      case _ => cases heq; exact ih
    | prev =>
      simp only [browseStep] at heq
      split at heq
      · cases heq; omega
      · cases heq; exact ih
    | quit =>
      simp only [browseStep] at heq
      simp at heq
    | other =>
      simp only [browseStep] at heq
      cases heq
      exact ih

/-- C6: every reachable page index stays within `[0, ceil(total/page_size)-1]`
(the lower bound holding by type); `next` on the last page and `prev` on page
0 are no-ops with a notice; and with 25 entries and page size 10, page 0
shows entries 1 to 10 and page 2 shows entries 21 to 25. -/
theorem C6_pagination (library_data : List LibEntry) (page_size page_num : Nat)
    (hps : 0 < page_size) (hne : library_data ≠ []) :
    (BrowseReach library_data page_size page_num →
       page_num ≤ totalPages library_data.length page_size - 1) ∧
    (page_num = totalPages library_data.length page_size - 1 →
       browseStep library_data page_size page_num .next = .cont page_num true) ∧
    browseStep library_data page_size 0 .prev = .cont 0 true ∧
    page_data ((List.range 25).map (fun i => i + 1)) 10 0 =
      [1, 2, 3, 4, 5, 6, 7, 8, 9, 10] ∧
    page_data ((List.range 25).map (fun i => i + 1)) 10 2 = [21, 22, 23, 24, 25] := by
  have hn : 0 < library_data.length := List.length_pos.mpr hne
  refine ⟨fun hr => browse_page_invariant _ _ _ hps hn hr, ?_, ?_, by decide, by decide⟩
  · intro hp
    simp only [browseStep]
    split
    case _ hlt =>
      exfalso
      have h1 := totalPages_pos library_data.length page_size hps hn
      have h2 := next_page_bound library_data.length page_size page_num hps hlt
      omega
    case _ => rfl
  · simp only [browseStep]
    rfl

/-- C6 witness: with two entries and page size one, page 1 is reachable and
within bounds, `next` there is a no-op with a notice, and `prev` on page 0 is
a no-op with a notice. -/
theorem C6_witness :
    1 ≤ totalPages [entryA, entryB].length 1 - 1 ∧
    browseStep [entryA, entryB] 1 1 .next = .cont 1 true ∧
    browseStep [entryA, entryB] 1 0 .prev = .cont 0 true := by
  have h := C6_pagination [entryA, entryB] 1 1 (by decide) (List.cons_ne_nil _ _)
  exact ⟨h.1 (BrowseReach.step 0 1 .next false BrowseReach.init (by decide)),
    h.2.1 (by decide), h.2.2.1⟩

/-- `str.split` never splits inside a separator-free leading part. -/
theorem splitFirst_no_sep (a : List Char) (h : ':' ∉ a) (r : List Char) :
    splitFirst ':' (a ++ ':' :: r) = some (a, r) := by
  induction a with
  | nil => simp [splitFirst]
  | cons c cs ih =>
    have h1 : ':' ≠ c ∧ ':' ∉ cs := by simpa using h
    have hc : (c == ':') = false := by simp [Ne.symm h1.1]
    show (if c == ':' then some ([], cs ++ ':' :: r)
          else (splitFirst ':' (cs ++ ':' :: r)).map (fun p => (c :: p.1, p.2))) =
        some (c :: cs, r)
    simp [hc, ih h1.2]

/-- Peeling one split off `splitMax` when the leading part is
separator-free. -/
theorem splitMax_succ_sep (n : Nat) (a r : List Char) (h : ':' ∉ a) :
    splitMax ':' (n + 1) (a ++ ':' :: r) = a :: splitMax ':' n r := by
  show (match splitFirst ':' (a ++ ':' :: r) with
        | none => [a ++ ':' :: r]
        | some (x, y) => x :: splitMax ':' n y) = a :: splitMax ':' n r
  rw [splitFirst_no_sep a h]

/-- C7: a line with colon-free identifier and author fields splits on at most
two colons, keeping the remainder (embedded colons included) as the stripped
title; in particular the claim's sample line parses to its three fields. -/
theorem C7_parse_listing :
    (∀ a b c : List Char, ':' ∉ a → ':' ∉ b →
       parse_line (a ++ ':' :: (b ++ ':' :: c)) =
         some ⟨(pyStrip a).asString, (pyStrip c).asString, [(pyStrip b).asString]⟩) ∧
    parse_library_list_output "B012345678: Jane Doe: My Book: A Subtitle" =
      [⟨"B012345678", "My Book: A Subtitle", ["Jane Doe"]⟩] := by
  refine ⟨?_, by decide⟩
  intro a b c ha hb
  unfold parse_line
  have h2 : splitMax ':' 2 (a ++ ':' :: (b ++ ':' :: c)) = [a, b, c] := by
    rw [show (2 : Nat) = 1 + 1 from rfl, splitMax_succ_sep 1 a _ ha,
        splitMax_succ_sep 0 b _ hb]
    rfl
  rw [h2]

/-- C7 witness: the claim's sample line, fed to the per-line parser. -/
theorem C7_witness :
    parse_line ("B012345678".data ++ ':' ::
        (" Jane Doe".data ++ ':' :: " My Book: A Subtitle".data)) =
      some ⟨(pyStrip "B012345678".data).asString,
            (pyStrip " My Book: A Subtitle".data).asString,
            [(pyStrip " Jane Doe".data).asString]⟩ :=
  C7_parse_listing.1 "B012345678".data " Jane Doe".data " My Book: A Subtitle".data
    (by decide) (by decide)

/-- C9: a numeric input `n` is accepted if and only if `1 <= n <= ` the full
list's length; an accepted `n` selects the n-th entry of the full list, hands
its ASIN to `process_book` and exits the loop, while an out-of-bounds `n`
re-prompts on the same page with a notice. -/
theorem C9_numeric_selection (library_data : List LibEntry) (page_size page_num n : Nat)
    (output_dir : String) (keep_files : Bool) (env : PbEnv) :
    (∀ (h1 : 1 ≤ n) (h2 : n ≤ library_data.length),
       browseStep library_data page_size page_num (.num n) =
         .select (library_data.get ⟨n - 1, by omega⟩).asin ∧
       browseDispatch output_dir keep_files env
           (browseStep library_data page_size page_num (.num n)) =
         some (process_book (library_data.get ⟨n - 1, by omega⟩).asin output_dir
                keep_files env)) ∧
    (¬(1 ≤ n ∧ n ≤ library_data.length) →
       browseStep library_data page_size page_num (.num n) = .cont page_num true) := by
  constructor
  · intro h1 h2
    have hs : browseStep library_data page_size page_num (.num n) =
        .select (library_data.get ⟨n - 1, by omega⟩).asin := by
      simp only [browseStep]
      rw [dif_pos ⟨h1, h2⟩]
    exact ⟨hs, by rw [hs]; rfl⟩
  · intro h
    simp only [browseStep]
    rw [dif_neg h]

/-- C9 witness: with two entries, input 2 selects the second entry of the
full list and input 3 is rejected with a re-prompt. -/
theorem C9_witness :
    browseStep [entryA, entryB] 10 0 (.num 2) =
      .select (([entryA, entryB].get ⟨1, by decide⟩).asin) ∧
    browseStep [entryA, entryB] 10 0 (.num 3) = .cont 0 true :=
  ⟨((C9_numeric_selection [entryA, entryB] 10 0 2 "out" false
      ⟨[], true, [], some 0, [], some 0⟩).1 (by decide) (by decide)).1,
   (C9_numeric_selection [entryA, entryB] 10 0 3 "out" false
      ⟨[], true, [], some 0, [], some 0⟩).2 (by decide)⟩

/-- C10: every string of exactly 10 characters whose first character is `B`
is accepted by `validate_asin`, with no constraint on the other nine
characters. -/
theorem C10_validate_accepts (s : String)
    (h1 : s.length = 10) (h2 : s.data.head? = some 'B') :
    validate_asin s = true := by
  simp [validate_asin, h1, h2]

/-- C10 witness: a 10-character string that is `B` followed by spaces and
punctuation still validates. -/
theorem C10_witness : validate_asin "B !?,;<>()" = true :=
  C10_validate_accepts "B !?,;<>()" (by decide) (by decide)

/-- The well-formed voucher of the claim. -/
def voucherGoodJson : Json :=
  .obj [("content_license", .obj [("license_response",
    .obj [("key", .str "AB12"), ("iv", .str "CD34")])])]

/-- A voucher whose license response is missing the `key` field. -/
def voucherNoKeyJson : Json :=
  .obj [("content_license", .obj [("license_response",
    .obj [("iv", .str "CD34")])])]

/-- Closed form of `get_aaxc_credentials` on a voucher file whose decoded
value has the expected nested-dict shape. -/
theorem get_aaxc_credentials_eq (fs : FS) (p : String) (fe : FileEntry)
    (cl : List (String × Json)) (h1 : fsLookup fs p = some fe)
    (h2 : fe.json = some (.obj [("content_license", .obj [("license_response", .obj cl)])])) :
    get_aaxc_credentials fs p =
      (if !((cl.lookup "key").getD .null).truthy || !((cl.lookup "iv").getD .null).truthy
       then .error .malformedVoucher
       else .ok ((cl.lookup "key").getD .null, (cl.lookup "iv").getD .null)) := by
  unfold get_aaxc_credentials
  rw [h1]
  dsimp only
  rw [h2]
  rfl

/-- C2: credential extraction fails with the missing-file error when the
voucher path does not exist; fails with the malformed-voucher error when the
nested `key`/`iv` fields are absent or empty (falsy), in particular on a
voucher missing `key`; and on the claim's well-formed voucher returns the
pair `("AB12", "CD34")`. -/
theorem C2_credentials :
    (∀ (fs : FS) (p : String), fsLookup fs p = none →
        get_aaxc_credentials fs p = .error .missingFile) ∧
    (∀ (fs : FS) (p : String) (fe : FileEntry) (cl : List (String × Json)),
        fsLookup fs p = some fe →
        fe.json = some (.obj [("content_license", .obj [("license_response", .obj cl)])]) →
        (((cl.lookup "key").getD .null).truthy = false ∨
         ((cl.lookup "iv").getD .null).truthy = false) →
        get_aaxc_credentials fs p = .error .malformedVoucher) ∧
    get_aaxc_credentials [⟨"v.voucher", 10, some voucherNoKeyJson⟩] "v.voucher" =
      .error .malformedVoucher ∧
    get_aaxc_credentials [⟨"v.voucher", 10, some voucherGoodJson⟩] "v.voucher" =
      .ok (.str "AB12", .str "CD34") := by
  refine ⟨?_, ?_, by rfl, by rfl⟩
  · intro fs p h
    unfold get_aaxc_credentials
    rw [h]
  · intro fs p fe cl h1 h2 h3
    rw [get_aaxc_credentials_eq fs p fe cl h1 h2]
    rcases h3 with h3 | h3 <;> simp [h3]

/-- C2 witness: instances of the missing-file and malformed-voucher parts. -/
theorem C2_witness :
    get_aaxc_credentials [] "missing.voucher" = .error .missingFile ∧
    get_aaxc_credentials [⟨"w.voucher", 7, some voucherNoKeyJson⟩] "w.voucher" =
      .error .malformedVoucher :=
  ⟨C2_credentials.1 [] "missing.voucher" rfl,
   C2_credentials.2.1 [⟨"w.voucher", 7, some voucherNoKeyJson⟩] "w.voucher"
     ⟨"w.voucher", 7, some voucherNoKeyJson⟩ [("iv", Json.str "CD34")] rfl rfl
     (Or.inl rfl)⟩

/-- Deleting a path makes it nonexistent. -/
theorem fsExists_fsRemove (fs : FS) (p : String) : fsExists (fsRemove fs p) p = false := by
  induction fs with
  | nil => rfl
  | cons fe rest ih =>
    unfold fsRemove at ih ⊢
    by_cases h : fe.path = p
    · have hb : (fe.path != p) = false := by simp [h]
      simp only [List.filter, hb]
      exact ih
    · have hb : (fe.path != p) = true := by simp [h]
      have hb2 : (fe.path == p) = false := by simp [h]
      simp only [List.filter, hb]
      unfold fsExists fsLookup at ih ⊢
      simp only [List.find?, hb2]
      exact ih

/-- C3: whenever the verifier returns false for the decrypted file, the
orchestrator exits with code 1 and the unverified output file is absent from
the final file system; and the run never exits with code 0 unless the
verifier was invoked and returned true. -/
theorem C3_unverified_output_deleted (asin output_dir : String) (keep_files : Bool)
    (env : PbEnv) :
    ((process_book asin output_dir keep_files env).verifyCalled = true →
      verify_decrypted_file env.verifyRc = false →
      (process_book asin output_dir keep_files env).exitCode = 1 ∧
      ∀ p, (process_book asin output_dir keep_files env).outputFile = some p →
        fsExists (process_book asin output_dir keep_files env).fs p = false) ∧
    ((process_book asin output_dir keep_files env).exitCode = 0 →
      (process_book asin output_dir keep_files env).verifyCalled = true ∧
      verify_decrypted_file env.verifyRc = true) := by
  unfold process_book
  split
  · exact ⟨fun h => by simp at h, fun h => by simp at h⟩
  split
  · exact ⟨fun h => by simp at h, fun h => by simp at h⟩
  split
  · exact ⟨fun h => by simp at h, fun h => by simp at h⟩
  split
  · exact ⟨fun h => by simp at h, fun h => by simp at h⟩
  split
  case _ output_file heq =>
    split
    case _ hverify =>
      refine ⟨fun _ _ => ⟨rfl, ?_⟩, fun h => by simp at h⟩
      intro p hp
      simp only [Option.some.injEq] at hp
      subst hp
      split
      case _ hex => exact fsExists_fsRemove env.fsDec _
      case _ hex => simpa using hex
    case _ hverify =>
      simp only [Bool.not_eq_true', Bool.not_eq_false] at hverify
      exact ⟨fun _ hf => absurd hverify (by simp [hf]), fun _ => ⟨rfl, hverify⟩⟩
  case _ h =>
    exact ⟨fun h => by simp at h, fun h => by simp at h⟩

/-- A newline-free list has a true regex tail condition. -/
theorem tailOk_of_no_newline (s : List Char) (h : '\n' ∉ s) : tailOk s = true := by
  unfold tailOk
  have hc : s.contains '\n' = false := by simpa using h
  rw [hc]
  simp

/-- On newline-free text the regex match condition coincides with plain
marker-substring occurrence. -/
theorem markerMatchHere_eq_of_no_newline (l : List Char) (h : '\n' ∉ l) :
    markerMatchHere l = markerHere l := by
  unfold markerMatchHere markerHere
  rw [tailOk_of_no_newline (l.drop 4) (fun hc => h (List.drop_subset 4 l hc)),
      tailOk_of_no_newline (l.drop 3) (fun hc => h (List.drop_subset 3 l hc))]
  simp

/-- On newline-free stems `re.search` finds exactly the first marker
occurrence. -/
theorem reSearchStart_eq_spec_of_no_newline (l : List Char) (h : '\n' ∉ l) :
    reSearchStart l = specFirstMarkerIdx l := by
  induction l with
  | nil => rfl
  | cons c cs ih =>
    unfold reSearchStart specFirstMarkerIdx
    rw [markerMatchHere_eq_of_no_newline (c :: cs) h,
        ih (fun hc => h (List.mem_cons_of_mem c hc))]

/-- A regex match implies a marker occurrence. -/
theorem markerHere_of_markerMatchHere (l : List Char) (h : markerMatchHere l = true) :
    markerHere l = true := by
  unfold markerMatchHere at h
  unfold markerHere
  simp only [Bool.or_eq_true, Bool.and_eq_true] at h
  rcases h with ⟨h2, _⟩ | ⟨h2, _⟩ <;> simp [h2]

/-- When no marker occurs at all, `re.search` finds nothing. -/
theorem reSearchStart_none_of_spec_none (l : List Char) (h : specFirstMarkerIdx l = none) :
    reSearchStart l = none := by
  induction l with
  | nil => rfl
  | cons c cs ih =>
    unfold specFirstMarkerIdx at h
    unfold reSearchStart
    by_cases hm : markerHere (c :: cs) = true
    · simp [hm] at h
    · have hmm : markerMatchHere (c :: cs) = false := by
        cases hmm2 : markerMatchHere (c :: cs)
        · rfl
        · exact absurd (markerHere_of_markerMatchHere _ hmm2) hm
      simp only [hm, if_false, Option.map_eq_none', Bool.false_eq_true] at h
      simp [hmm, ih h]

/-- C4 counterexample: the stem `a-AAX` + newline + `b` contains the marker
`-AAX` at index 1, so the claim demands BaseName `a`; the code's regex finds
no match there (dot cannot cross the newline), so BaseName is the full stem
and a warning is emitted. -/
theorem C4_counterexample :
    specFirstMarkerIdx "a-AAX\nb".data = some 1 ∧
    base_name_of "a-AAX\nb".data = ("a-AAX\nb".data, 1) ∧
    "a-AAX\nb".data.take 1 ≠ "a-AAX\nb".data :=
  ⟨by decide, by decide, by decide⟩

/-- C4 (amended): for every newline-free artifact filename stem, BaseName is
the stem truncated at the first occurrence of either license marker, with no
warning; and for every stem (with or without newlines) containing neither
marker, BaseName equals the full stem and `get_related_files` emits exactly
one warning, without crashing. -/
theorem C4_base_name :
    (∀ stem : List Char, '\n' ∉ stem →
       (∀ i, specFirstMarkerIdx stem = some i → base_name_of stem = (stem.take i, 0)) ∧
       (specFirstMarkerIdx stem = none → base_name_of stem = (stem, 1))) ∧
    (∀ stem : List Char, specFirstMarkerIdx stem = none → base_name_of stem = (stem, 1)) ∧
    (∀ (fs : FS) (aaxc_file : String),
       specFirstMarkerIdx (stemOfName (nameChars aaxc_file.data)) = none →
       (get_related_files fs aaxc_file).warnings = 1) := by
  have hfall : ∀ stem : List Char, specFirstMarkerIdx stem = none →
      base_name_of stem = (stem, 1) := by
    intro stem h
    unfold base_name_of
    rw [reSearchStart_none_of_spec_none stem h]
  refine ⟨?_, hfall, ?_⟩
  · intro stem hnl
    constructor
    · intro i hi
      unfold base_name_of
      rw [reSearchStart_eq_spec_of_no_newline stem hnl, hi]
    · intro h
      exact hfall stem h
  · intro fs aaxc_file h
    dsimp only [get_related_files]
    rw [hfall _ h]

/-- C4 witness: a marker-free stem falls back to the full stem with one
warning, and a newline-free stem with a marker truncates at it. -/
theorem C4_witness :
    base_name_of "book".data = ("book".data, 1) ∧
    (get_related_files [⟨"out/book.aaxc", 5, none⟩] "out/book.aaxc").warnings = 1 ∧
    base_name_of "book-AAX-extra".data = ("book-AAX-extra".data.take 4, 0) :=
  ⟨C4_base_name.2.1 "book".data (by decide),
   C4_base_name.2.2 [⟨"out/book.aaxc", 5, none⟩] "out/book.aaxc" (by decide),
   (C4_base_name.1 "book-AAX-extra".data (by decide)).1 4 (by decide)⟩

/-- File system after the download for the C3 witness pipeline. -/
def fsDlEx : FS :=
  [⟨"out/book-AAX.aaxc", 5, none⟩, ⟨"out/book-AAX.voucher", 3, some voucherGoodJson⟩]

/-- File system after the decrypt step for the C3 witness pipeline. -/
def fsDecEx : FS :=
  fsDlEx ++ [⟨"out/book-AAX.m4b", 100, none⟩]

/-- An oracle on which every stage succeeds except verification. -/
def envVerifyFail : PbEnv := ⟨[], true, fsDlEx, some 0, fsDecEx, some 1⟩

/-- C3 witness: on a run whose verification fails, the process exits with
code 1 and the decrypted output is gone. -/
theorem C3_witness :
    (process_book "B123456789" "out" false envVerifyFail).exitCode = 1 ∧
    fsExists (process_book "B123456789" "out" false envVerifyFail).fs "out/book-AAX.m4b" =
      false := by
  have h := (C3_unverified_output_deleted "B123456789" "out" false envVerifyFail).1
    (by rfl) (by rfl)
  exact ⟨h.1, h.2 "out/book-AAX.m4b" (by rfl)⟩
